import Mathlib

/-
Verification of the cooperative task scheduler (src/src/scheduler.ts).

The development shallowly embeds the scheduler core: the task algebra,
the continuation stack, the iterative stepping loop of _Scheduler_step,
and the batch join coordinator (slot array, completed count, error flag,
kill pass). Callbacks are Lean functions; the untyped JavaScript values
flowing through tasks are modelled by a small value universe; the
asynchronous completion of batch members is modelled by an explicit
sequence of completion reports processed by the coordinator transcribed
from the source.
-/

set_option maxHeartbeats 1000000

namespace Scheduler

/-- Values passed between tasks and continuations. The source is untyped
JavaScript, so a small universe is used: numbers, strings, arrays (batch
results are arrays) and the undefined value that a read of an unassigned
array slot yields. -/
inductive Val where
  | nat : Nat → Val
  | str : String → Val
  | arr : List Val → Val
  | undef : Val

/-- JavaScript truthiness for the modelled values: the number 0 and the
empty string are falsy, arrays are always truthy, undefined is falsy.
The batch coordinator branches on the truthiness of the recorded error
value (scheduler.ts lines 212 and 247). -/
def truthy : Val → Bool
  | .nat n => n != 0
  | .str s => s != ""
  | .arr _ => true
  | .undef => false

/-- Tag (scheduler.ts lines 3-10). -/
inductive Tag where
  | SUCCEED
  | FAIL
  | AND_THEN
  | ON_ERROR
  | BATCH
  | BINDING
  | RECIEVE
deriving DecidableEq

/-- A completion report delivered to the batch coordinator by one child
process: the per-member success handler of scheduler.ts lines 224-236
carries the member index and its result; the shared error handler of
lines 210-221 carries the error value, and the index records which child
fired it. -/
inductive BEvent where
  | success : Nat → Val → BEvent
  | error : Nat → Val → BEvent

/-- Task (scheduler.ts lines 25-72). Callbacks are Lean functions. A
binding is an external-effect boundary: the model identifies its cleanup
thunk by a numeric id, and the Boolean records whether the in-flight
assignment of line 186 (proc.root.kill = proc.root.callback(...)) has
happened. The coordinator bindings allocated by handleSuccess and
handleError (lines 210-236) are BINDING-tagged tasks whose closure
performs a coordinator action and whose cleanup is a no-op; the model
represents such a binding as coord carrying the action its closure
performs. -/
inductive Task where
  | succeed : Val → Task
  | fail : Val → Task
  | andThen : Task → (Val → Task) → Task
  | onError : Task → (Val → Task) → Task
  | batch : List Task → Task
  | binding : Nat → Bool → Task
  | coord : BEvent → Task
  | recieve : (Val → Task) → Task

/-- Continuation-stack frame (scheduler.ts lines 19-23): the tag names
the terminal kind that triggers the callback; lines 259-263 only ever
push SUCCEED or FAIL. -/
structure Frame where
  tag : Tag
  callback : Val → Task

/-- Process (scheduler.ts lines 12-17). The numeric id, drawn from a
global counter, plays no role in stepping and is omitted. The
null-terminated stack chain is a list of frames, the mailbox array a
list of values. -/
structure Process where
  root : Task
  stack : List Frame
  mailbox : List Val

/-- The inner unwind loop of scheduler.ts lines 169-171: drop frames
whose tag differs from the tag of the terminal root; the result starts
at the first matching frame, or is empty when no frame matches. -/
def unwindTo (t : Tag) : List Frame → List Frame
  | [] => []
  | f :: rest => if f.tag = t then f :: rest else unwindTo t rest

/-- The ways one iteration of the stepping loop can return control
(scheduler.ts lines 174, 193, 196, 203 and 250). A coordinator binding
surfaces the report its closure delivers. -/
inductive StepExit where
  | finished : Process → StepExit
  | suspendBinding : Process → StepExit
  | suspendCoord : Process → BEvent → StepExit
  | suspendRecieve : Process → StepExit
  | suspendBatch : Process → StepExit

/-- Result of one iteration of the while loop of _Scheduler_step: either
the loop continues with the updated process, or the function returns. -/
inductive Step1 where
  | next : Process → Step1
  | ret : StepExit → Step1

/-- One iteration of the while loop of _Scheduler_step (scheduler.ts
lines 162-267), case by case. SUCCEED and FAIL unwind the stack to the
first matching frame and either finish (lines 173-175) or apply the
frame callback and pop (lines 179-181). BINDING invokes the effect
starter and returns, recording the cleanup assignment of line 186 in the
killSet flag; a coordinator binding likewise returns, surfacing its
report. RECIEVE returns on an empty mailbox (lines 195-197) and
otherwise shifts the head message (line 199). BATCH returns (line 203
for the empty case; line 250 after spawning children, the spawning pass
being modelled by spawnChild below). AND_THEN and ON_ERROR push a frame
and descend into the inner task (lines 259-264). -/
def step1 (p : Process) : Step1 :=
  match p.root with
  | .succeed v =>
    match unwindTo .SUCCEED p.stack with
    | [] => .ret (.finished { p with stack := [] })
    | f :: rest => .next { p with root := f.callback v, stack := rest }
  | .fail v =>
    match unwindTo .FAIL p.stack with
    | [] => .ret (.finished { p with stack := [] })
    | f :: rest => .next { p with root := f.callback v, stack := rest }
  | .andThen t k => .next { p with root := t, stack := ⟨.SUCCEED, k⟩ :: p.stack }
  | .onError t k => .next { p with root := t, stack := ⟨.FAIL, k⟩ :: p.stack }
  | .batch _ => .ret (.suspendBatch p)
  | .binding i _ => .ret (.suspendBinding { p with root := .binding i true })
  | .coord ev => .ret (.suspendCoord p ev)
  | .recieve k =>
    match p.mailbox with
    | [] => .ret (.suspendRecieve p)
    | m :: ms => .next { p with root := k m, mailbox := ms }

/-- Iterate the loop body a fixed number of times, returning either the
intermediate process (the loop is still running) or the exit. -/
def steps : Nat → Process → Process ⊕ StepExit
  | 0, p => .inl p
  | n + 1, p =>
    match step1 p with
    | .next q => steps n q
    | .ret e => .inr e

/-- Run the loop to its return with the given amount of fuel; none means
the fuel ran out before the function returned. -/
def run : Nat → Process → Option StepExit
  | 0, _ => none
  | n + 1, p =>
    match step1 p with
    | .next q => run n q
    | .ret e => some e

/-- Modelled from the spec: the mailbox delivery operation is not part of
scheduler.ts (only the consuming RECIEVE side is); section 4.3 of the
specification defines deliver(process, message) as appending the message
to the tail of the queue. -/
def deliver (p : Process) (msg : Val) : Process :=
  { p with mailbox := p.mailbox ++ [msg] }

mutual

/-- kill (scheduler.ts lines 135-141): invoke the cleanup thunk of a
BINDING whose kill field has been assigned, recurse through the members
of a BATCH, and ignore every other tag — in particular AND_THEN and
ON_ERROR, whose inner tasks are not visited. The result lists the ids of
the cleanup thunks invoked, in invocation order; a coordinator binding
has a no-op cleanup and contributes nothing. -/
def kill : Task → List Nat
  | .binding i true => [i]
  | .binding _ false => []
  | .batch ts => killList ts
  | _ => []

/-- task.tasks.forEach(kill) of scheduler.ts line 139. -/
def killList : List Task → List Nat
  | [] => []
  | t :: ts => kill t ++ killList ts

end

mutual

/-- The in-flight bindings of a task: every binding whose kill field has
been assigned, collected through every compositional layer (including
AND_THEN and ON_ERROR, which kill does not visit). Used to compare what
a kill pass actually cancels against what is pending. -/
def flagged : Task → List Nat
  | .binding i true => [i]
  | .binding _ false => []
  | .batch ts => flaggedList ts
  | .andThen t _ => flagged t
  | .onError t _ => flagged t
  | _ => []

/-- flagged over a list of member tasks. -/
def flaggedList : List Task → List Nat
  | [] => []
  | t :: ts => flagged t ++ flaggedList ts

end

/-- The truthiness test if (err) of scheduler.ts lines 212 and 247: err
is null before the first recorded failure and holds the first recorded
error value afterwards. -/
def errGuard : Option Val → Bool
  | none => false
  | some v => truthy v

/-- Coordinator state of one BATCH instance (scheduler.ts lines 205-208)
together with its observable history: childRoots mirrors procs (the
current root of each child process, which is what the kill pass of line
215 reads), results, count and err are the coordinator variables,
resumed records, in order, each task the parent process was resumed with
(lines 217-218 and 231-232), and killed records each cleanup id invoked
by kill passes. -/
structure BatchRun where
  childRoots : List Task
  results : List (Option Val)
  count : Nat
  err : Option Val
  resumed : List Task
  killed : List Nat

/-- succeed(results) of scheduler.ts line 231: reading an unassigned
slot of a JavaScript array yields undefined. -/
def arrayVal (rs : List (Option Val)) : Val :=
  .arr (rs.map fun o => o.getD .undef)

/-- Body of the handleSuccess binding for member i (scheduler.ts lines
225-236): record the result in slot i, increment the count, and if the
count equals the slot-array length resume the parent with the results.
The error flag is not consulted. -/
def handleSuccessRun (st : BatchRun) (i : Nat) (v : Val) : BatchRun :=
  let results := st.results.set i (some v)
  let count := st.count + 1
  if count = results.length then
    { st with
      results := results
      count := count
      resumed := st.resumed ++ [Task.succeed (arrayVal results)] }
  else
    { st with results := results, count := count }

/-- Body of the handleError binding (scheduler.ts lines 211-221): if the
recorded error is truthy the report is discarded (line 212 tests the
JavaScript truthiness of err, which is null before the first failure);
otherwise kill every child process root, record the error and resume the
parent with the failure. -/
def handleErrorRun (st : BatchRun) (e : Val) : BatchRun :=
  if errGuard st.err then st
  else
    { st with
      killed := st.killed ++ killList st.childRoots
      err := some e
      resumed := st.resumed ++ [Task.fail e] }

/-- One report reaching the coordinator. When a report fires, the
reporting child process is suspended at the coordinator binding itself
(the stepping loop set its root to that binding before invoking its
closure), which is what a later kill pass sees for that child. -/
def applyEvent (st : BatchRun) (ev : BEvent) : BatchRun :=
  match ev with
  | .success i v =>
    handleSuccessRun { st with childRoots := st.childRoots.set i (.coord ev) } i v
  | .error i e =>
    handleErrorRun { st with childRoots := st.childRoots.set i (.coord ev) } e

/-- Apply a sequence of reports in the order the host delivers them. -/
def runEvents (st : BatchRun) (evs : List BEvent) : BatchRun :=
  evs.foldl applyEvent st

/-- The wrapping of member i (scheduler.ts lines 238-241):
onError(andThen(task, handleSuccess), handleError), where the handlers
build the coordinator bindings carrying the report. -/
def wrapChild (i : Nat) (t : Task) : Task :=
  .onError (.andThen t fun v => .coord (.success i v)) fun e => .coord (.error i e)

/-- Coordinator state right after scheduler.ts lines 205-208 and 244:
one child process per member with the wrapped member as root, a slot
array with every slot unassigned, a zero count and a null error. -/
def initBatch (members : List Task) : BatchRun :=
  { childRoots := members.enum.map fun q => wrapChild q.1 q.2
    results := List.replicate members.length none
    count := 0
    err := none
    resumed := []
    killed := [] }

/-- One iteration of the spawn loop procs.forEach(p => !err && step(p))
of scheduler.ts line 247. When the recorded error is truthy the child is
skipped; otherwise its process is stepped: a child reaching a
coordinator binding fires the report inline, and a child suspending
anywhere else leaves its current root visible to later kill passes. The
Boolean appended to the second component records whether the child was
stepped. -/
def spawnChild (fuel : Nat) (acc : BatchRun × List Bool) (i : Nat) :
    BatchRun × List Bool :=
  if errGuard acc.1.err then (acc.1, acc.2 ++ [false])
  else
    match run fuel { root := acc.1.childRoots.getD i (.succeed .undef),
                     stack := [], mailbox := [] } with
    | some (.suspendCoord _ ev) => (applyEvent acc.1 ev, acc.2 ++ [true])
    | some (.suspendBinding q) =>
      ({ acc.1 with childRoots := acc.1.childRoots.set i q.root }, acc.2 ++ [true])
    | some (.suspendBatch q) =>
      ({ acc.1 with childRoots := acc.1.childRoots.set i q.root }, acc.2 ++ [true])
    | some (.suspendRecieve q) =>
      ({ acc.1 with childRoots := acc.1.childRoots.set i q.root }, acc.2 ++ [true])
    | some (.finished q) =>
      ({ acc.1 with childRoots := acc.1.childRoots.set i q.root }, acc.2 ++ [true])
    | none => (acc.1, acc.2 ++ [true])

/-- The spawn pass over all members (scheduler.ts lines 244-247). -/
def spawnFold (fuel : Nat) (members : List Task) : BatchRun × List Bool :=
  (List.range members.length).foldl (spawnChild fuel) (initBatch members, [])

/-- Whether a report is a success report. -/
def isSucc : BEvent → Bool
  | .success _ _ => true
  | .error _ _ => false

/-- The index of the child that fired a report. -/
def evIdx : BEvent → Nat
  | .success i _ => i
  | .error i _ => i

/-- The slot update a report performs (scheduler.ts line 226); an error
report does not touch the slots. -/
def setEvent (rs : List (Option Val)) : BEvent → List (Option Val)
  | .success i v => rs.set i (some v)
  | .error _ _ => rs

/-- The slot array after a sequence of reports. -/
def applySets (rs : List (Option Val)) (evs : List BEvent) : List (Option Val) :=
  evs.foldl setEvent rs

/-- The in-order success reports for a value list: child i reports the
i-th value. -/
def canonicalSuccs (vs : List Val) : List BEvent :=
  vs.enum.map fun q => BEvent.success q.1 q.2

/-- Child roots whose in-flight bindings all sit in positions that the
kill traversal reaches: a binding itself, a coordinator binding, or a
batch of such roots. A root whose pending binding hides below an
AND_THEN or ON_ERROR layer is not of this shape. -/
inductive BareNest : Task → Prop where
  | bindb : ∀ i b, BareNest (Task.binding i b)
  | coordb : ∀ ev, BareNest (Task.coord ev)
  | batchb : ∀ ts, (∀ t ∈ ts, BareNest t) → BareNest (Task.batch ts)

/-! Theorems. -/

/-- Unwinding a stack that holds no frame of the wanted tag empties it. -/
theorem unwindTo_eq_nil (t : Tag) (s : List Frame)
    (h : ∀ f ∈ s, f.tag ≠ t) : unwindTo t s = [] := by
  induction s with
  | nil => rfl
  | cons f rest ih =>
    have hf : f.tag ≠ t := h f (List.mem_cons_self f rest)
    simp only [unwindTo, if_neg hf]
    exact ih fun g hg => h g (List.mem_cons_of_mem f hg)

/-- A spawned child whose member task is succeed(v) runs to the
handleSuccess coordinator binding carrying (i, v); the failure frame of
the wrapper is still on its stack when it suspends. -/
theorem wrapChild_succeed_reports (i : Nat) (v : Val) :
    run 4 { root := wrapChild i (.succeed v), stack := [], mailbox := [] }
      = some (.suspendCoord
          { root := .coord (.success i v)
            stack := [⟨.FAIL, fun e => .coord (.error i e)⟩]
            mailbox := [] }
          (.success i v)) := rfl

/-- A spawned child whose member task is fail(e) runs to the shared
handleError coordinator binding carrying the error: the success frame of
the wrapper is skipped by the unwind. -/
theorem wrapChild_fail_reports (i : Nat) (e : Val) :
    run 4 { root := wrapChild i (.fail e), stack := [], mailbox := [] }
      = some (.suspendCoord
          { root := .coord (.error i e), stack := [], mailbox := [] }
          (.error i e)) := rfl

/-- A child suspended at a member binding still has the two wrapper
frames on its stack; when the external effect completes with succeed(v)
and the child is re-stepped, it runs to the handleSuccess coordinator
binding carrying (i, v). -/
theorem child_resume_succeed_reports (i : Nat) (v : Val) :
    run 2 { root := .succeed v
            stack := [⟨.SUCCEED, fun w => .coord (.success i w)⟩,
                      ⟨.FAIL, fun e => .coord (.error i e)⟩]
            mailbox := [] }
      = some (.suspendCoord
          { root := .coord (.success i v)
            stack := [⟨.FAIL, fun e => .coord (.error i e)⟩]
            mailbox := [] }
          (.success i v)) := rfl

/-- A child suspended at a member binding whose external effect completes
with fail(e) runs, when re-stepped, to the handleError coordinator
binding carrying the error. -/
theorem child_resume_fail_reports (i : Nat) (e : Val) :
    run 2 { root := .fail e
            stack := [⟨.SUCCEED, fun w => .coord (.success i w)⟩,
                      ⟨.FAIL, fun e2 => .coord (.error i e2)⟩]
            mailbox := [] }
      = some (.suspendCoord
          { root := .coord (.error i e), stack := [], mailbox := [] }
          (.error i e)) := rfl

/-- C5: stepping andThen(succeed(v), k) continues as exactly k(v), with
stack and mailbox untouched; and stepping andThen(fail(e), k) behaves
exactly as stepping fail(e) itself — the continuation k does not appear
in the outcome for any k, so the failure propagates without k being
invoked. -/
theorem andThen_reduction :
    (∀ (v : Val) (k : Val → Task) (s : List Frame) (m : List Val),
      steps 2 { root := .andThen (.succeed v) k, stack := s, mailbox := m }
        = .inl { root := k v, stack := s, mailbox := m }) ∧
    (∀ (e : Val) (k : Val → Task) (s : List Frame) (m : List Val),
      steps 2 { root := .andThen (.fail e) k, stack := s, mailbox := m }
        = steps 1 { root := .fail e, stack := s, mailbox := m }) := by
  refine ⟨fun v k s m => rfl, fun e k s m => rfl⟩

/-- C6: stepping onError(fail(e), k) continues as exactly k(e); stepping
onError(succeed(v), k) behaves exactly as stepping succeed(v) itself, so
the success propagates without k being invoked; and unwinding skips
non-matching frames: onError(andThen(fail(e), k1), k2) continues as
k2(e) for every k1 — k1 is never invoked. -/
theorem onError_reduction :
    (∀ (e : Val) (k : Val → Task) (s : List Frame) (m : List Val),
      steps 2 { root := .onError (.fail e) k, stack := s, mailbox := m }
        = .inl { root := k e, stack := s, mailbox := m }) ∧
    (∀ (v : Val) (k : Val → Task) (s : List Frame) (m : List Val),
      steps 2 { root := .onError (.succeed v) k, stack := s, mailbox := m }
        = steps 1 { root := .succeed v, stack := s, mailbox := m }) ∧
    (∀ (e : Val) (k1 k2 : Val → Task) (s : List Frame) (m : List Val),
      steps 3 { root := .onError (.andThen (.fail e) k1) k2, stack := s, mailbox := m }
        = .inl { root := k2 e, stack := s, mailbox := m }) := by
  refine ⟨fun e k s m => rfl, fun v k s m => rfl, fun e k1 k2 s m => rfl⟩

/-- C7: when the root is a failure and no remaining frame expects
FAILURE, one step finishes the process silently: the stack is fully
unwound, no continuation is invoked, and the loop returns with the
process left in the failed state. -/
theorem fail_unwinds_silently :
    ∀ (e : Val) (s : List Frame) (m : List Val),
      (∀ f ∈ s, f.tag ≠ Tag.FAIL) →
      steps 1 { root := .fail e, stack := s, mailbox := m }
        = .inr (.finished { root := .fail e, stack := [], mailbox := m }) := by
  intro e s m h
  simp only [steps, step1, unwindTo_eq_nil Tag.FAIL s h]

/-- C7 witness: a failure beneath a single success frame terminates
silently with the stack fully unwound. -/
theorem fail_unwinds_silently_witness :
    steps 1 { root := .fail (.str "boom")
              stack := [⟨.SUCCEED, Task.succeed⟩], mailbox := [] }
      = .inr (.finished { root := .fail (.str "boom"), stack := [], mailbox := [] }) :=
  fail_unwinds_silently (.str "boom") [⟨.SUCCEED, Task.succeed⟩] [] (by
    intro f hf
    rw [List.mem_singleton] at hf
    subst hf
    decide)

/-- C8: a RECIEVE against an empty mailbox returns without changing the
process; with messages present one step consumes exactly the head (the
oldest) message, removes it from the mailbox, and continues as the
continuation applied to it; deliver appends at the tail, so after one
deliver to an empty mailbox the next step consumes exactly that
message. -/
theorem recieve_fifo :
    (∀ (k : Val → Task) (s : List Frame),
      step1 { root := .recieve k, stack := s, mailbox := [] }
        = .ret (.suspendRecieve { root := .recieve k, stack := s, mailbox := [] })) ∧
    (∀ (k : Val → Task) (s : List Frame) (msg : Val) (ms : List Val),
      step1 { root := .recieve k, stack := s, mailbox := msg :: ms }
        = .next { root := k msg, stack := s, mailbox := ms }) ∧
    (∀ (p : Process) (msg : Val),
      (deliver p msg).mailbox = p.mailbox ++ [msg]) ∧
    (∀ (k : Val → Task) (s : List Frame) (msg : Val),
      step1 (deliver { root := .recieve k, stack := s, mailbox := [] } msg)
        = .next { root := k msg, stack := s, mailbox := [] }) := by
  refine ⟨fun k s => rfl, fun k s msg ms => rfl, fun p msg => rfl, fun k s msg => rfl⟩

/-- C1: stepping a process whose root is batch([]) returns immediately
with the root, stack and mailbox untouched — scheduler.ts line 203
returns before any coordinator is set up, so the pending continuation
frames are never invoked and the process stays suspended forever instead
of being resumed with an empty success. -/
theorem batch_empty_never_resumes :
    ∀ (s : List Frame) (m : List Val),
      step1 { root := .batch [], stack := s, mailbox := m }
        = .ret (.suspendBatch { root := .batch [], stack := s, mailbox := m }) := by
  intro s m
  rfl

/-- applyEvent on a success report, characterized: the slot is written,
the count incremented, the reporting child root replaced by its
coordinator binding, and the parent resumed exactly when the count
reaches the slot-array length. -/
theorem applyEvent_success_eq (st : BatchRun) (i : Nat) (v : Val) :
    applyEvent st (.success i v)
      = if st.count + 1 = st.results.length then
          { st with childRoots := st.childRoots.set i (.coord (.success i v)),
                    results := st.results.set i (some v), count := st.count + 1,
                    resumed := st.resumed ++ [Task.succeed (arrayVal (st.results.set i (some v)))] }
        else
          { st with childRoots := st.childRoots.set i (.coord (.success i v)),
                    results := st.results.set i (some v), count := st.count + 1 } := by
  simp only [applyEvent, handleSuccessRun, List.length_set]

/-- A run of success reports that exactly fills the remaining count
resumes the parent exactly once, at the last report, with the final slot
array. -/
theorem runEvents_all_succ :
    ∀ (evs : List BEvent) (st : BatchRun),
      (∀ ev ∈ evs, isSucc ev = true) →
      st.count + evs.length = st.results.length →
      st.count < st.results.length →
      (runEvents st evs).resumed
        = st.resumed ++ [Task.succeed (arrayVal (applySets st.results evs))] := by
  intro evs
  induction evs with
  | nil =>
    intro st _ hlen hlt
    simp at hlen
    omega
  | cons ev evs ih =>
    intro st hall hlen hlt
    cases ev with
    | error j e =>
      have h := hall (.error j e) (List.mem_cons_self _ _)
      simp [isSucc] at h
    | success i v =>
      have hrun : runEvents st (BEvent.success i v :: evs)
          = runEvents (applyEvent st (.success i v)) evs := rfl
      have hsets : applySets st.results (BEvent.success i v :: evs)
          = applySets (st.results.set i (some v)) evs := rfl
      rw [hrun, hsets, applyEvent_success_eq]
      by_cases hdone : st.count + 1 = st.results.length
      · rw [if_pos hdone]
        have hevs : evs = [] := by
          have hl := hlen
          simp at hl
          have : evs.length = 0 := by omega
          exact List.length_eq_zero.mp this
        subst hevs
        simp [runEvents, applySets]
      · rw [if_neg hdone]
        have hl := hlen
        simp at hl
        have h2 := ih { st with childRoots := st.childRoots.set i (.coord (.success i v)), results := st.results.set i (some v), count := st.count + 1 }
          (fun ev hev => hall ev (List.mem_cons_of_mem _ hev))
          (by simp [List.length_set]; omega)
          (by simp [List.length_set]; omega)
        simpa using h2

/-- Slot updates of two reports with distinct child indices commute. -/
theorem setEvent_comm (rs : List (Option Val)) (x y : BEvent)
    (h : evIdx x ≠ evIdx y) :
    setEvent (setEvent rs x) y = setEvent (setEvent rs y) x := by
  cases x with
  | error j e => cases y <;> simp [setEvent]
  | success i v =>
    cases y with
    | error j e => simp [setEvent]
    | success j w =>
      simp only [setEvent]
      exact List.set_comm (some v) (some w) rs (by simpa [evIdx] using h)

/-- The final slot array does not depend on the order in which reports
with pairwise distinct child indices arrive. -/
theorem applySets_perm :
    ∀ {evs1 evs2 : List BEvent}, evs1.Perm evs2 →
      (evs1.map evIdx).Nodup →
      ∀ rs, applySets rs evs1 = applySets rs evs2 := by
  intro evs1 evs2 h
  induction h with
  | nil => intro _ rs; rfl
  | cons x h ih =>
    intro hn rs
    show applySets (setEvent rs x) _ = applySets (setEvent rs x) _
    exact ih (by simpa using hn.of_cons) (setEvent rs x)
  | swap x y l =>
    intro hn rs
    show applySets (setEvent (setEvent rs y) x) l = applySets (setEvent (setEvent rs x) y) l
    rw [setEvent_comm rs y x ?hne]
    case hne =>
      have hmem : evIdx y ∉ (x :: l).map evIdx := by
        have h2 := hn
        simp at h2
        exact fun hc => absurd hc (by simpa using h2.1)
      intro hc
      exact hmem (by simp [hc])
  | trans h1 h2 ih1 ih2 =>
    intro hn rs
    rw [ih1 hn rs]
    exact ih2 (((h1.map evIdx).nodup_iff).mp hn) rs

/-- Setting the slot just past a prefix rewrites the head of the tail. -/
theorem set_at_append (pre : List (Option Val)) (x y : Option Val)
    (rest : List (Option Val)) :
    (pre ++ x :: rest).set pre.length y = pre ++ y :: rest := by
  induction pre with
  | nil => rfl
  | cons a pre ih => simp [List.set, ih]

/-- In-order success reports fill an unassigned slot array with the
reported values in order. -/
theorem applySets_canonical :
    ∀ (vs : List Val) (pre : List (Option Val)),
      applySets (pre ++ List.replicate vs.length none)
          ((List.enumFrom pre.length vs).map fun q => BEvent.success q.1 q.2)
        = pre ++ vs.map some := by
  intro vs
  induction vs with
  | nil => intro pre; simp [applySets]
  | cons v vs ih =>
    intro pre
    have h1 : applySets (pre ++ List.replicate (v :: vs).length none)
        ((List.enumFrom pre.length (v :: vs)).map fun q => BEvent.success q.1 q.2)
        = applySets ((pre ++ List.replicate (v :: vs).length none).set pre.length (some v))
            ((List.enumFrom (pre.length + 1) vs).map fun q => BEvent.success q.1 q.2) := rfl
    rw [h1]
    have h2 : (pre ++ List.replicate (v :: vs).length none).set pre.length (some v)
        = (pre ++ [some v]) ++ List.replicate vs.length none := by
      have h3 : List.replicate (v :: vs).length (none : Option Val)
          = none :: List.replicate vs.length none := rfl
      rw [h3, set_at_append]
      simp
    rw [h2]
    have h3 : pre.length + 1 = (pre ++ [some v]).length := by simp
    rw [h3, ih (pre ++ [some v])]
    simp

/-- Any permutation of the canonical success reports fills the slot
array with the values in member order. -/
theorem applySets_replicate_perm (vs : List Val) (evs : List BEvent)
    (h : evs.Perm (canonicalSuccs vs)) :
    applySets (List.replicate vs.length none) evs = vs.map some := by
  have hn : (evs.map evIdx).Nodup := by
    rw [(h.map evIdx).nodup_iff]
    have hc : (canonicalSuccs vs).map evIdx = List.range vs.length := by
      unfold canonicalSuccs
      rw [List.map_map]
      rw [show (evIdx ∘ fun q : Nat × Val => BEvent.success q.1 q.2) = Prod.fst from
        funext fun q => rfl]
      exact List.enum_map_fst vs
    rw [hc]
    exact List.nodup_range _
  rw [applySets_perm h hn]
  have h0 := applySets_canonical vs []
  simpa [canonicalSuccs, List.enum] using h0

/-- C4 (amended to non-empty batches): for every non-empty batch whose
members all succeed — the reports being any permutation of the canonical
per-member success reports, that is, one success per member in an
arbitrary completion order — the parent is resumed exactly once, with a
result array whose i-th element is the result of the i-th member. -/
theorem batch_all_succeed_resumes_once_ordered :
    ∀ (members : List Task) (vs : List Val) (evs : List BEvent),
      members ≠ [] →
      vs.length = members.length →
      evs.Perm (canonicalSuccs vs) →
      (runEvents (initBatch members) evs).resumed = [Task.succeed (.arr vs)] := by
  intro members vs evs hne hlen hperm
  have hn0 : 0 < members.length := List.length_pos.mpr hne
  have hevlen : evs.length = vs.length := by
    rw [hperm.length_eq]
    simp [canonicalSuccs]
  have hall : ∀ ev ∈ evs, isSucc ev = true := by
    intro ev hev
    have hmem : ev ∈ canonicalSuccs vs := hperm.mem_iff.mp hev
    simp only [canonicalSuccs, List.mem_map] at hmem
    obtain ⟨q, _, rfl⟩ := hmem
    rfl
  have hmain := runEvents_all_succ evs (initBatch members)
    hall
    (by simp [initBatch, hevlen, hlen])
    (by simp [initBatch]; omega)
  have hres : (initBatch members).results = List.replicate vs.length none := by
    simp [initBatch, hlen]
  rw [hres] at hmain
  rw [applySets_replicate_perm vs evs hperm] at hmain
  have harr : arrayVal (vs.map some) = Val.arr vs := by
    simp [arrayVal, List.map_map]
    have hid : ((fun o => Option.getD o Val.undef) ∘ some) = id := funext fun v => rfl
    rw [hid, List.map_id]
  rw [harr] at hmain
  simpa [initBatch] using hmain

/-- C4 witness: a two-member batch whose members report out of order
(child 1 first, then child 0) still resumes the parent once with the
results in member order. -/
theorem batch_all_succeed_resumes_once_ordered_witness :
    (runEvents (initBatch [Task.binding 0 false, Task.binding 1 false])
        [BEvent.success 1 (.nat 4), BEvent.success 0 (.nat 3)]).resumed
      = [Task.succeed (.arr [.nat 3, .nat 4])] :=
  batch_all_succeed_resumes_once_ordered [Task.binding 0 false, Task.binding 1 false]
    [.nat 3, .nat 4] [BEvent.success 1 (.nat 4), BEvent.success 0 (.nat 3)]
    (by simp) rfl
    (List.Perm.swap (BEvent.success 0 (.nat 3)) (BEvent.success 1 (.nat 4)) [])

/-- C4 counterexample: for the empty batch — whose members all succeed
vacuously — the engine returns with the process untouched (scheduler.ts
line 203), so the parent is never resumed with the empty ordered result;
the claim fails in the zero-member case. -/
theorem batch_empty_all_succeed_no_resume :
    step1 { root := .batch [], stack := [⟨.SUCCEED, Task.succeed⟩], mailbox := [] }
      = .ret (.suspendBatch
          { root := .batch [], stack := [⟨.SUCCEED, Task.succeed⟩], mailbox := [] }) := rfl

/-- C2 (code divergence): both members of a two-member batch are spawned
and suspend at their bindings; the first then fails with the falsy error
value 0, the second later fails with a second error. Because line 212
tests the JavaScript truthiness of the recorded error, the recorded 0
does not register as a recorded failure, so the second report kills and
resumes again: the parent is resumed twice, not exactly once. -/
theorem batch_falsy_error_double_resume :
    (runEvents (spawnFold 9 [Task.binding 0 false, Task.binding 1 false]).1
        [BEvent.error 0 (.nat 0), BEvent.error 1 (.str "late")]).resumed
      = [Task.fail (.nat 0), Task.fail (.str "late")] := rfl

/-- C3 counterexample: the member of a nested batch is
andThen(binding, k). The grandchild process suspends in flight at the
binding with its cleanup assigned (first conjunct), the middle child
suspends with the nested batch task as its root (second conjunct), yet
when the sibling member fails, the kill pass of the coordinator invokes
no cleanup at all — kill does not traverse the AND_THEN layer inside the
nested batch member — although the flagged in-flight binding 0 is
pending (last conjunct). The pending binding is cancelled zero times,
not exactly once. -/
theorem batch_nested_andThen_binding_not_killed :
    run 4 { root := wrapChild 0 (.andThen (.binding 0 false) fun x => .succeed x),
            stack := [], mailbox := [] }
      = some (.suspendBinding
          { root := .binding 0 true
            stack := [⟨.SUCCEED, fun x => .succeed x⟩,
                      ⟨.SUCCEED, fun v => .coord (.success 0 v)⟩,
                      ⟨.FAIL, fun e => .coord (.error 0 e)⟩]
            mailbox := [] })
  ∧ run 3 { root := wrapChild 0 (.batch [.andThen (.binding 0 false) fun x => .succeed x]),
            stack := [], mailbox := [] }
      = some (.suspendBatch
          { root := .batch [.andThen (.binding 0 false) fun x => .succeed x]
            stack := [⟨.SUCCEED, fun v => .coord (.success 0 v)⟩,
                      ⟨.FAIL, fun e => .coord (.error 0 e)⟩]
            mailbox := [] })
  ∧ (handleErrorRun
      { childRoots := [.batch [.andThen (.binding 0 true) fun x => .succeed x],
                       .coord (.error 1 (.str "e"))]
        results := [none, none], count := 0, err := none,
        resumed := [], killed := [] } (.str "e")).killed = []
  ∧ flagged (.batch [.andThen (.binding 0 true) fun x => .succeed x]) = [0] :=
  ⟨rfl, rfl, rfl, rfl⟩

/-- kill agrees with the full in-flight collection on child roots whose
pending bindings all sit in positions the kill traversal reaches. -/
theorem killList_eq_flaggedList_of :
    ∀ (ts : List Task), (∀ t ∈ ts, kill t = flagged t) →
      killList ts = flaggedList ts := by
  intro ts
  induction ts with
  | nil => intro _; rfl
  | cons t ts ih =>
    intro h
    show kill t ++ killList ts = flagged t ++ flaggedList ts
    rw [h t (List.mem_cons_self _ _), ih fun u hu => h u (List.mem_cons_of_mem _ hu)]

/-- On a bare-nested task, kill invokes exactly the in-flight cleanup
thunks. -/
theorem kill_eq_flagged : ∀ (t : Task), BareNest t → kill t = flagged t := by
  intro t h
  induction h with
  | bindb i b => cases b <;> rfl
  | coordb ev => rfl
  | batchb ts hmem ih =>
    show killList ts = flaggedList ts
    exact killList_eq_flaggedList_of ts ih

/-- C3 (amended): when the first member failure of a batch is handled —
no error recorded yet, no cleanup invoked yet — and every child root
keeps its pending bindings in kill-reachable position (a bare binding, a
coordinator binding, or batches of such), the kill pass invokes the
cleanup thunk of every in-flight leaf binding exactly once each
(provided the cleanup thunks are distinct), and the parent is resumed
with the failure; an in-flight binding beneath an AND_THEN or ON_ERROR
inside a nested batch member is outside this shape and is not cancelled,
as the counterexample shows. -/
theorem batch_first_error_kills_bare_inflight_once :
    ∀ (st : BatchRun) (e : Val),
      st.err = none →
      st.killed = [] →
      (∀ r ∈ st.childRoots, BareNest r) →
      (flaggedList st.childRoots).Nodup →
      (handleErrorRun st e).killed = flaggedList st.childRoots ∧
      (∀ i ∈ flaggedList st.childRoots, (handleErrorRun st e).killed.count i = 1) ∧
      (handleErrorRun st e).resumed = st.resumed ++ [Task.fail e] := by
  intro st e herr hk hbare hnd
  have hguard : errGuard st.err = false := by rw [herr]; rfl
  have heq : killList st.childRoots = flaggedList st.childRoots :=
    killList_eq_flaggedList_of st.childRoots fun r hr => kill_eq_flagged r (hbare r hr)
  refine ⟨?_, ?_, ?_⟩
  · simp [handleErrorRun, hguard, hk, heq]
  · intro i hi
    have h1 : (handleErrorRun st e).killed = flaggedList st.childRoots := by
      simp [handleErrorRun, hguard, hk, heq]
    rw [h1]
    exact List.count_eq_one_of_mem hnd hi
  · simp [handleErrorRun, hguard]

/-- C3 witness: three children — an in-flight bare binding, a nested
batch holding an in-flight and a not-yet-started binding, and a
completed child — on the first failure have exactly the two in-flight
cleanups invoked, each once. -/
theorem batch_first_error_kills_bare_inflight_once_witness :
    (handleErrorRun
      { childRoots := [.binding 5 true, .batch [.binding 7 true, .binding 8 false],
                       .coord (.success 0 (.nat 1))]
        results := [none, none, none], count := 0, err := none,
        resumed := [], killed := [] } (.str "stop")).killed = [5, 7]
  ∧ (handleErrorRun
      { childRoots := [.binding 5 true, .batch [.binding 7 true, .binding 8 false],
                       .coord (.success 0 (.nat 1))]
        results := [none, none, none], count := 0, err := none,
        resumed := [], killed := [] } (.str "stop")).killed.count 7 = 1 := by
  have h := batch_first_error_kills_bare_inflight_once
    { childRoots := [.binding 5 true, .batch [.binding 7 true, .binding 8 false],
                     .coord (.success 0 (.nat 1))]
      results := [none, none, none], count := 0, err := none,
      resumed := [], killed := [] } (.str "stop")
    rfl rfl
    (by
      intro r hr
      simp at hr
      rcases hr with h1 | h1 | h1 <;> subst h1
      · exact BareNest.bindb 5 true
      · refine BareNest.batchb _ ?_
        intro t ht
        simp at ht
        rcases ht with h2 | h2 <;> subst h2
        · exact BareNest.bindb 7 true
        · exact BareNest.bindb 8 false
      · exact BareNest.coordb _)
    (by decide)
  refine ⟨h.1, ?_⟩
  exact h.2.1 7 (by decide)

/-- Splitting a range for decomposing the spawn pass. -/
theorem range_split (a b : Nat) :
    List.range (a + b) = List.range a ++ (List.range b).map (a + ·) := by
  induction b with
  | zero => simp
  | succ b ih =>
    rw [Nat.add_succ, List.range_succ, ih, List.range_succ]
    simp

/-- Once the recorded error is truthy, the rest of the spawn pass steps
no child and changes nothing but the stepped flags, which all read
false. -/
theorem spawnFold_skip (fuel : Nat) :
    ∀ (idxs : List Nat) (st : BatchRun) (stepped : List Bool),
      errGuard st.err = true →
      idxs.foldl (spawnChild fuel) (st, stepped)
        = (st, stepped ++ List.replicate idxs.length false) := by
  intro idxs
  induction idxs with
  | nil => intro st stepped _; simp
  | cons i idxs ih =>
    intro st stepped h
    have h1 : spawnChild fuel (st, stepped) i = (st, stepped ++ [false]) := by
      simp [spawnChild, h]
    simp only [List.foldl_cons, h1, ih st (stepped ++ [false]) h]
    simp [List.replicate_succ]

/-- C10 (amended): if, after the spawn pass has processed the first
j + 1 children, the recorded error value is truthy — a member failed
synchronously with a truthy error — then every later sibling is never
stepped at all: the full spawn pass leaves the coordinator state exactly
as it was after child j, and the stepped flags of all later siblings are
false. A falsy synchronous error does not set the truthiness guard of
line 247 and later siblings are still stepped, as the counterexample
shows. -/
theorem spawn_truthy_sync_error_skips_later_siblings :
    ∀ (fuel : Nat) (members : List Task) (j : Nat) (e : Val),
      j + 1 ≤ members.length →
      ((List.range (j + 1)).foldl (spawnChild fuel) (initBatch members, [])).1.err = some e →
      truthy e = true →
      spawnFold fuel members
        = (((List.range (j + 1)).foldl (spawnChild fuel) (initBatch members, [])).1,
           ((List.range (j + 1)).foldl (spawnChild fuel) (initBatch members, [])).2
             ++ List.replicate (members.length - (j + 1)) false) := by
  intro fuel members j e hj herr htr
  unfold spawnFold
  have hsplit : List.range members.length
      = List.range (j + 1) ++ (List.range (members.length - (j + 1))).map ((j + 1) + ·) := by
    rw [← range_split]
    congr 1
    omega
  rw [hsplit, List.foldl_append]
  have hg : errGuard (((List.range (j + 1)).foldl (spawnChild fuel) (initBatch members, [])).1).err = true := by
    rw [herr]
    exact htr
  have h0 := spawnFold_skip fuel ((List.range (members.length - (j + 1))).map ((j + 1) + ·))
    ((List.range (j + 1)).foldl (spawnChild fuel) (initBatch members, [])).1
    ((List.range (j + 1)).foldl (spawnChild fuel) (initBatch members, [])).2 hg
  simpa using h0

/-- C10 witness: the first member fails synchronously with the truthy
error x, so the second member is skipped by the spawn pass. -/
theorem spawn_truthy_sync_error_skips_later_siblings_witness :
    spawnFold 6 [Task.fail (.str "x"), Task.binding 3 false]
      = (((List.range 1).foldl (spawnChild 6) (initBatch [Task.fail (.str "x"), Task.binding 3 false], [])).1,
         ((List.range 1).foldl (spawnChild 6) (initBatch [Task.fail (.str "x"), Task.binding 3 false], [])).2
           ++ List.replicate 1 false) :=
  spawn_truthy_sync_error_skips_later_siblings 6
    [Task.fail (.str "x"), Task.binding 3 false] 0 (.str "x")
    (by decide) rfl (by decide)

/-- C10 counterexample: the first member fails synchronously with the
falsy error value 0; the truthiness guard of line 247 does not see a
recorded error, so the later sibling is stepped anyway (both stepped
flags read true) and even resumes the parent a second time. -/
theorem spawn_falsy_sync_error_steps_later_sibling :
    (spawnFold 9 [Task.fail (.nat 0), Task.fail (.str "late")]).2 = [true, true]
  ∧ (spawnFold 9 [Task.fail (.nat 0), Task.fail (.str "late")]).1.resumed
      = [Task.fail (.nat 0), Task.fail (.str "late")] := ⟨rfl, rfl⟩

end Scheduler
